import Mathlib

/- Verification of the prequel statement-aware lexical scanner (main.go):
   the character-stream flattening, the single-pass highlighter with its
   quote/escape tracking, statement segmentation, keyword classification,
   the cursor-to-statement resolver, query-text extraction and the
   result-formatter column widths. -/

set_option maxRecDepth 4000

/-- Terminal colors used by the highlighter (termbox attributes). -/
inductive Color where
  | black
  | white
  | green
  | blue
  | red
  | cursorStatement
deriving DecidableEq

/-- main.go: colorKeyword = termbox.ColorBlue. -/
def colorKeyword : Color := Color.blue

/-- main.go: colorType = termbox.ColorRed. -/
def colorType : Color := Color.red

/-- main.go: cursorStatementColor = termbox.Attribute(237). -/
def cursorStatementColor : Color := Color.cursorStatement

/-- main.go: minColumnWidth = 5. -/
def minColumnWidth : Nat := 5

/-- main.go: maxColumnWidth = 25. -/
def maxColumnWidth : Nat := 25

/-- Go quoteNone: the zero rune, the sentinel for no open quote. -/
def quoteNone : Char := Char.ofNat 0

/-- Go quoteSingle: a single-quote character. -/
def quoteSingle : Char := Char.ofNat 39

/-- Go quoteDouble: a double-quote character. -/
def quoteDouble : Char := Char.ofNat 34

/-- A backslash character. -/
def backslash : Char := Char.ofNat 92

/-- A newline character. -/
def newline : Char := Char.ofNat 10

/-- A semicolon character. -/
def semicolon : Char := Char.ofNat 59

/-- main.go: the word-delimiter set of the highlighter. -/
def delimiters : List Char := [Char.ofNat 32, newline, Char.ofNat 40, Char.ofNat 41, Char.ofNat 44, semicolon]

/-- main.go: type Statement { start, length int } into the flattened stream. -/
structure Statement where
  start : Nat
  length : Nat
deriving DecidableEq

/-- main.go initKeywords: the static keyword table (lower-cased word to color). -/
def keywords : List (String × Color) := [
  ("account", colorKeyword),
  ("action", colorKeyword),
  ("add", colorKeyword),
  ("after", colorKeyword),
  ("against", colorKeyword),
  ("aggregate", colorKeyword),
  ("algorithm", colorKeyword),
  ("all", colorKeyword),
  ("alter", colorKeyword),
  ("always", colorKeyword),
  ("analyse", colorKeyword),
  ("analyze", colorKeyword),
  ("and", colorKeyword),
  ("any", colorKeyword),
  ("as", colorKeyword),
  ("asc", colorKeyword),
  ("ascii", colorKeyword),
  ("asensitive", colorKeyword),
  ("at", colorKeyword),
  ("autoextend_size", colorKeyword),
  ("auto_increment", colorKeyword),
  ("avg", colorKeyword),
  ("avg_row_length", colorKeyword),
  ("backup", colorKeyword),
  ("before", colorKeyword),
  ("begin", colorKeyword),
  ("between", colorKeyword),
  ("bigint", colorType),
  ("binary", colorType),
  ("binlog", colorKeyword),
  ("bit", colorType),
  ("blob", colorType),
  ("block", colorKeyword),
  ("bool", colorType),
  ("boolean", colorType),
  ("both", colorKeyword),
  ("btree", colorKeyword),
  ("by", colorKeyword),
  ("byte", colorType),
  ("cache", colorKeyword),
  ("call", colorKeyword),
  ("cascade", colorKeyword),
  ("cascaded", colorKeyword),
  ("case", colorKeyword),
  ("catalog_name", colorKeyword),
  ("chain", colorKeyword),
  ("change", colorKeyword),
  ("changed", colorKeyword),
  ("channel", colorKeyword),
  ("char", colorType),
  ("character", colorKeyword),
  ("charset", colorKeyword),
  ("check", colorKeyword),
  ("checksum", colorKeyword),
  ("cipher", colorKeyword),
  ("class_origin", colorKeyword),
  ("client", colorKeyword),
  ("close", colorKeyword),
  ("coalesce", colorKeyword),
  ("code", colorKeyword),
  ("collate", colorKeyword),
  ("collation", colorKeyword),
  ("column", colorKeyword),
  ("columns", colorKeyword),
  ("column_format", colorKeyword),
  ("column_name", colorKeyword),
  ("comment", colorKeyword),
  ("commit", colorKeyword),
  ("committed", colorKeyword),
  ("compact", colorKeyword),
  ("completion", colorKeyword),
  ("compressed", colorKeyword),
  ("compression", colorKeyword),
  ("concurrent", colorKeyword),
  ("condition", colorKeyword),
  ("connection", colorKeyword),
  ("consistent", colorKeyword),
  ("constraint", colorKeyword),
  ("constraint_catalog", colorKeyword),
  ("constraint_name", colorKeyword),
  ("constraint_schema", colorKeyword),
  ("contains", colorKeyword),
  ("context", colorKeyword),
  ("continue", colorKeyword),
  ("convert", colorKeyword),
  ("cpu", colorKeyword),
  ("create", colorKeyword),
  ("cross", colorKeyword),
  ("cube", colorKeyword),
  ("current", colorKeyword),
  ("current_date", colorKeyword),
  ("current_time", colorKeyword),
  ("current_timestamp", colorKeyword),
  ("current_user", colorKeyword),
  ("cursor", colorKeyword),
  ("cursor_name", colorKeyword),
  ("data", colorKeyword),
  ("database", colorKeyword),
  ("databases", colorKeyword),
  ("datafile", colorKeyword),
  ("date", colorType),
  ("datetime", colorType),
  ("day", colorKeyword),
  ("day_hour", colorKeyword),
  ("day_microsecond", colorKeyword),
  ("day_minute", colorKeyword),
  ("day_second", colorKeyword),
  ("deallocate", colorKeyword),
  ("dec", colorKeyword),
  ("decimal", colorType),
  ("declare", colorKeyword),
  ("default", colorKeyword),
  ("default_auth", colorKeyword),
  ("definer", colorKeyword),
  ("delayed", colorKeyword),
  ("delay_key_write", colorKeyword),
  ("delete", colorKeyword),
  ("desc", colorKeyword),
  ("describe", colorKeyword),
  ("des_key_file", colorKeyword),
  ("deterministic", colorKeyword),
  ("diagnostics", colorKeyword),
  ("directory", colorKeyword),
  ("disable", colorKeyword),
  ("discard", colorKeyword),
  ("disk", colorKeyword),
  ("distinct", colorKeyword),
  ("distinctrow", colorKeyword),
  ("div", colorKeyword),
  ("do", colorKeyword),
  ("double", colorType),
  ("drop", colorKeyword),
  ("dual", colorKeyword),
  ("dumpfile", colorKeyword),
  ("duplicate", colorKeyword),
  ("dynamic", colorKeyword),
  ("each", colorKeyword),
  ("else", colorKeyword),
  ("elseif", colorKeyword),
  ("enable", colorKeyword),
  ("enclosed", colorKeyword),
  ("encryption", colorKeyword),
  ("end", colorKeyword),
  ("ends", colorKeyword),
  ("engine", colorKeyword),
  ("engines", colorKeyword),
  ("enum", colorType),
  ("error", colorKeyword),
  ("errors", colorKeyword),
  ("escape", colorKeyword),
  ("escaped", colorKeyword),
  ("event", colorKeyword),
  ("events", colorKeyword),
  ("every", colorKeyword),
  ("exchange", colorKeyword),
  ("execute", colorKeyword),
  ("exists", colorKeyword),
  ("exit", colorKeyword),
  ("expansion", colorKeyword),
  ("expire", colorKeyword),
  ("explain", colorKeyword),
  ("export", colorKeyword),
  ("extended", colorKeyword),
  ("extent_size", colorKeyword),
  ("false", colorKeyword),
  ("fast", colorKeyword),
  ("faults", colorKeyword),
  ("fetch", colorKeyword),
  ("fields", colorKeyword),
  ("file", colorKeyword),
  ("file_block_size", colorKeyword),
  ("filter", colorKeyword),
  ("first", colorKeyword),
  ("fixed", colorKeyword),
  ("float", colorType),
  ("float4", colorType),
  ("float8", colorType),
  ("flush", colorKeyword),
  ("follows", colorKeyword),
  ("for", colorKeyword),
  ("force", colorKeyword),
  ("foreign", colorKeyword),
  ("format", colorKeyword),
  ("found", colorKeyword),
  ("from", colorKeyword),
  ("full", colorKeyword),
  ("fulltext", colorKeyword),
  ("function", colorKeyword),
  ("general", colorKeyword),
  ("generated", colorKeyword),
  ("geometry", colorKeyword),
  ("geometrycollection", colorKeyword),
  ("get", colorKeyword),
  ("get_format", colorKeyword),
  ("global", colorKeyword),
  ("grant", colorKeyword),
  ("grants", colorKeyword),
  ("group", colorKeyword),
  ("group_replication", colorKeyword),
  ("handler", colorKeyword),
  ("hash", colorKeyword),
  ("having", colorKeyword),
  ("help", colorKeyword),
  ("high_priority", colorKeyword),
  ("host", colorKeyword),
  ("hosts", colorKeyword),
  ("hour", colorKeyword),
  ("hour_microsecond", colorKeyword),
  ("hour_minute", colorKeyword),
  ("hour_second", colorKeyword),
  ("identified", colorKeyword),
  ("if", colorKeyword),
  ("ignore", colorKeyword),
  ("ignore_server_ids", colorKeyword),
  ("import", colorKeyword),
  ("in", colorKeyword),
  ("index", colorKeyword),
  ("indexes", colorKeyword),
  ("infile", colorKeyword),
  ("initial_size", colorKeyword),
  ("inner", colorKeyword),
  ("inout", colorKeyword),
  ("insensitive", colorKeyword),
  ("insert", colorKeyword),
  ("insert_method", colorKeyword),
  ("install", colorKeyword),
  ("instance", colorKeyword),
  ("int", colorType),
  ("int1", colorType),
  ("int2", colorType),
  ("int3", colorType),
  ("int4", colorType),
  ("int8", colorType),
  ("integer", colorType),
  ("interval", colorKeyword),
  ("into", colorKeyword),
  ("invoker", colorKeyword),
  ("io", colorKeyword),
  ("io_after_gtids", colorKeyword),
  ("io_before_gtids", colorKeyword),
  ("io_thread", colorKeyword),
  ("ipc", colorKeyword),
  ("is", colorKeyword),
  ("isolation", colorKeyword),
  ("issuer", colorKeyword),
  ("iterate", colorKeyword),
  ("join", colorKeyword),
  ("json", colorKeyword),
  ("key", colorKeyword),
  ("keys", colorKeyword),
  ("key_block_size", colorKeyword),
  ("kill", colorKeyword),
  ("language", colorKeyword),
  ("last", colorKeyword),
  ("leading", colorKeyword),
  ("leave", colorKeyword),
  ("leaves", colorKeyword),
  ("left", colorKeyword),
  ("less", colorKeyword),
  ("level", colorKeyword),
  ("like", colorKeyword),
  ("limit", colorKeyword),
  ("linear", colorKeyword),
  ("lines", colorKeyword),
  ("linestring", colorKeyword),
  ("list", colorKeyword),
  ("load", colorKeyword),
  ("local", colorKeyword),
  ("localtime", colorKeyword),
  ("localtimestamp", colorKeyword),
  ("lock", colorKeyword),
  ("locks", colorKeyword),
  ("logfile", colorKeyword),
  ("logs", colorKeyword),
  ("long", colorKeyword),
  ("longblob", colorType),
  ("longtext", colorType),
  ("loop", colorKeyword),
  ("low_priority", colorKeyword),
  ("master", colorKeyword),
  ("master_auto_position", colorKeyword),
  ("master_bind", colorKeyword),
  ("master_connect_retry", colorKeyword),
  ("master_delay", colorKeyword),
  ("master_heartbeat_period", colorKeyword),
  ("master_host", colorKeyword),
  ("master_log_file", colorKeyword),
  ("master_log_pos", colorKeyword),
  ("master_password", colorKeyword),
  ("master_port", colorKeyword),
  ("master_retry_count", colorKeyword),
  ("master_server_id", colorKeyword),
  ("master_ssl", colorKeyword),
  ("master_ssl_ca", colorKeyword),
  ("master_ssl_capath", colorKeyword),
  ("master_ssl_cert", colorKeyword),
  ("master_ssl_cipher", colorKeyword),
  ("master_ssl_crl", colorKeyword),
  ("master_ssl_crlpath", colorKeyword),
  ("master_ssl_key", colorKeyword),
  ("master_ssl_verify_server_cert", colorKeyword),
  ("master_tls_version", colorKeyword),
  ("master_user", colorKeyword),
  ("match", colorKeyword),
  ("maxvalue", colorKeyword),
  ("max_connections_per_hour", colorKeyword),
  ("max_queries_per_hour", colorKeyword),
  ("max_rows", colorKeyword),
  ("max_size", colorKeyword),
  ("max_statement_time", colorKeyword),
  ("max_updates_per_hour", colorKeyword),
  ("max_user_connections", colorKeyword),
  ("medium", colorType),
  ("mediumblob", colorType),
  ("mediumint", colorType),
  ("mediumtext", colorType),
  ("memory", colorKeyword),
  ("merge", colorKeyword),
  ("message_text", colorKeyword),
  ("microsecond", colorKeyword),
  ("middleint", colorKeyword),
  ("migrate", colorKeyword),
  ("minute", colorKeyword),
  ("minute_microsecond", colorKeyword),
  ("minute_second", colorKeyword),
  ("min_rows", colorKeyword),
  ("mod", colorKeyword),
  ("mode", colorKeyword),
  ("modifies", colorKeyword),
  ("modify", colorKeyword),
  ("month", colorKeyword),
  ("multilinestring", colorKeyword),
  ("multipoint", colorKeyword),
  ("multipolygon", colorKeyword),
  ("mutex", colorKeyword),
  ("mysql_errno", colorKeyword),
  ("name", colorKeyword),
  ("names", colorKeyword),
  ("national", colorKeyword),
  ("natural", colorKeyword),
  ("nchar", colorType),
  ("ndb", colorKeyword),
  ("ndbcluster", colorKeyword),
  ("never", colorKeyword),
  ("new", colorKeyword),
  ("next", colorKeyword),
  ("no", colorKeyword),
  ("nodegroup", colorKeyword),
  ("nonblocking", colorKeyword),
  ("none", colorKeyword),
  ("not", colorKeyword),
  ("no_wait", colorKeyword),
  ("no_write_to_binlog", colorKeyword),
  ("null", colorKeyword),
  ("number", colorType),
  ("numeric", colorType),
  ("nvarchar", colorType),
  ("offset", colorKeyword),
  ("old_password", colorKeyword),
  ("on", colorKeyword),
  ("one", colorKeyword),
  ("only", colorKeyword),
  ("open", colorKeyword),
  ("optimize", colorKeyword),
  ("optimizer_costs", colorKeyword),
  ("option", colorKeyword),
  ("optionally", colorKeyword),
  ("options", colorKeyword),
  ("or", colorKeyword),
  ("order", colorKeyword),
  ("out", colorKeyword),
  ("outer", colorKeyword),
  ("outfile", colorKeyword),
  ("owner", colorKeyword),
  ("pack_keys", colorKeyword),
  ("page", colorKeyword),
  ("parser", colorKeyword),
  ("parse_gcol_expr", colorKeyword),
  ("partial", colorKeyword),
  ("partition", colorKeyword),
  ("partitioning", colorKeyword),
  ("partitions", colorKeyword),
  ("password", colorKeyword),
  ("phase", colorKeyword),
  ("plugin", colorKeyword),
  ("plugins", colorKeyword),
  ("plugin_dir", colorKeyword),
  ("point", colorKeyword),
  ("polygon", colorKeyword),
  ("port", colorKeyword),
  ("precedes", colorKeyword),
  ("precision", colorKeyword),
  ("prepare", colorKeyword),
  ("preserve", colorKeyword),
  ("prev", colorKeyword),
  ("primary", colorKeyword),
  ("privileges", colorKeyword),
  ("procedure", colorKeyword),
  ("processlist", colorKeyword),
  ("profile", colorKeyword),
  ("profiles", colorKeyword),
  ("proxy", colorKeyword),
  ("purge", colorKeyword),
  ("quarter", colorKeyword),
  ("query", colorKeyword),
  ("quick", colorKeyword),
  ("range", colorKeyword),
  ("read", colorKeyword),
  ("reads", colorKeyword),
  ("read_only", colorKeyword),
  ("read_write", colorKeyword),
  ("real", colorKeyword),
  ("rebuild", colorKeyword),
  ("recover", colorKeyword),
  ("redofile", colorKeyword),
  ("redo_buffer_size", colorKeyword),
  ("redundant", colorKeyword),
  ("references", colorKeyword),
  ("regexp", colorKeyword),
  ("relay", colorKeyword),
  ("relaylog", colorKeyword),
  ("relay_log_file", colorKeyword),
  ("relay_log_pos", colorKeyword),
  ("relay_thread", colorKeyword),
  ("release", colorKeyword),
  ("reload", colorKeyword),
  ("remove", colorKeyword),
  ("rename", colorKeyword),
  ("reorganize", colorKeyword),
  ("repair", colorKeyword),
  ("repeat", colorKeyword),
  ("repeatable", colorKeyword),
  ("replace", colorKeyword),
  ("replicate_do_db", colorKeyword),
  ("replicate_do_table", colorKeyword),
  ("replicate_ignore_db", colorKeyword),
  ("replicate_ignore_table", colorKeyword),
  ("replicate_rewrite_db", colorKeyword),
  ("replicate_wild_do_table", colorKeyword),
  ("replicate_wild_ignore_table", colorKeyword),
  ("replication", colorKeyword),
  ("require", colorKeyword),
  ("reset", colorKeyword),
  ("resignal", colorKeyword),
  ("restore", colorKeyword),
  ("restrict", colorKeyword),
  ("resume", colorKeyword),
  ("return", colorKeyword),
  ("returned_sqlstate", colorKeyword),
  ("returns", colorKeyword),
  ("reverse", colorKeyword),
  ("revoke", colorKeyword),
  ("right", colorKeyword),
  ("rlike", colorKeyword),
  ("rollback", colorKeyword),
  ("rollup", colorKeyword),
  ("rotate", colorKeyword),
  ("routine", colorKeyword),
  ("row", colorKeyword),
  ("rows", colorKeyword),
  ("row_count", colorKeyword),
  ("row_format", colorKeyword),
  ("rtree", colorKeyword),
  ("savepoint", colorKeyword),
  ("schedule", colorKeyword),
  ("schema", colorKeyword),
  ("schemas", colorKeyword),
  ("schema_name", colorKeyword),
  ("second", colorKeyword),
  ("second_microsecond", colorKeyword),
  ("security", colorKeyword),
  ("select", colorKeyword),
  ("sensitive", colorKeyword),
  ("separator", colorKeyword),
  ("serial", colorKeyword),
  ("serializable", colorKeyword),
  ("server", colorKeyword),
  ("session", colorKeyword),
  ("set", colorKeyword),
  ("share", colorKeyword),
  ("show", colorKeyword),
  ("shutdown", colorKeyword),
  ("signal", colorKeyword),
  ("signed", colorKeyword),
  ("simple", colorKeyword),
  ("slave", colorKeyword),
  ("slow", colorKeyword),
  ("smallint", colorType),
  ("snapshot", colorKeyword),
  ("socket", colorKeyword),
  ("some", colorKeyword),
  ("soname", colorKeyword),
  ("sounds", colorKeyword),
  ("source", colorKeyword),
  ("spatial", colorKeyword),
  ("specific", colorKeyword),
  ("sql", colorKeyword),
  ("sqlexception", colorKeyword),
  ("sqlstate", colorKeyword),
  ("sqlwarning", colorKeyword),
  ("sql_after_gtids", colorKeyword),
  ("sql_after_mts_gaps", colorKeyword),
  ("sql_before_gtids", colorKeyword),
  ("sql_big_result", colorKeyword),
  ("sql_buffer_result", colorKeyword),
  ("sql_cache", colorKeyword),
  ("sql_calc_found_rows", colorKeyword),
  ("sql_no_cache", colorKeyword),
  ("sql_small_result", colorKeyword),
  ("sql_thread", colorKeyword),
  ("sql_tsi_day", colorKeyword),
  ("sql_tsi_hour", colorKeyword),
  ("sql_tsi_minute", colorKeyword),
  ("sql_tsi_month", colorKeyword),
  ("sql_tsi_quarter", colorKeyword),
  ("sql_tsi_second", colorKeyword),
  ("sql_tsi_week", colorKeyword),
  ("sql_tsi_year", colorKeyword),
  ("ssl", colorKeyword),
  ("stacked", colorKeyword),
  ("start", colorKeyword),
  ("starting", colorKeyword),
  ("starts", colorKeyword),
  ("stats_auto_recalc", colorKeyword),
  ("stats_persistent", colorKeyword),
  ("stats_sample_pages", colorKeyword),
  ("status", colorKeyword),
  ("stop", colorKeyword),
  ("storage", colorKeyword),
  ("stored", colorKeyword),
  ("straight_join", colorKeyword),
  ("string", colorKeyword),
  ("subclass_origin", colorKeyword),
  ("subject", colorKeyword),
  ("subpartition", colorKeyword),
  ("subpartitions", colorKeyword),
  ("super", colorKeyword),
  ("suspend", colorKeyword),
  ("swaps", colorKeyword),
  ("switches", colorKeyword),
  ("table", colorKeyword),
  ("tables", colorKeyword),
  ("tablespace", colorKeyword),
  ("table_checksum", colorKeyword),
  ("table_name", colorKeyword),
  ("temporary", colorKeyword),
  ("temptable", colorKeyword),
  ("terminated", colorKeyword),
  ("text", colorKeyword),
  ("than", colorKeyword),
  ("then", colorKeyword),
  ("time", colorKeyword),
  ("timestamp", colorKeyword),
  ("timestampadd", colorKeyword),
  ("timestampdiff", colorKeyword),
  ("tinyblob", colorType),
  ("tinyint", colorType),
  ("tinytext", colorType),
  ("to", colorKeyword),
  ("trailing", colorKeyword),
  ("transaction", colorKeyword),
  ("trigger", colorKeyword),
  ("triggers", colorKeyword),
  ("true", colorKeyword),
  ("truncate", colorKeyword),
  ("type", colorKeyword),
  ("types", colorKeyword),
  ("uncommitted", colorKeyword),
  ("undefined", colorKeyword),
  ("undo", colorKeyword),
  ("undofile", colorKeyword),
  ("undo_buffer_size", colorKeyword),
  ("unicode", colorKeyword),
  ("uninstall", colorKeyword),
  ("union", colorKeyword),
  ("unique", colorKeyword),
  ("unknown", colorKeyword),
  ("unlock", colorKeyword),
  ("unsigned", colorKeyword),
  ("until", colorKeyword),
  ("update", colorKeyword),
  ("upgrade", colorKeyword),
  ("usage", colorKeyword),
  ("use", colorKeyword),
  ("user", colorKeyword),
  ("user_resources", colorKeyword),
  ("use_frm", colorKeyword),
  ("using", colorKeyword),
  ("utc_date", colorKeyword),
  ("utc_time", colorKeyword),
  ("utc_timestamp", colorKeyword),
  ("validation", colorKeyword),
  ("value", colorKeyword),
  ("values", colorKeyword),
  ("varbinary", colorType),
  ("varchar", colorType),
  ("varcharacter", colorKeyword),
  ("variables", colorKeyword),
  ("varying", colorKeyword),
  ("view", colorKeyword),
  ("virtual", colorKeyword),
  ("wait", colorKeyword),
  ("warnings", colorKeyword),
  ("week", colorKeyword),
  ("weight_string", colorKeyword),
  ("when", colorKeyword),
  ("where", colorKeyword),
  ("while", colorKeyword),
  ("with", colorKeyword),
  ("without", colorKeyword),
  ("work", colorKeyword),
  ("wrapper", colorKeyword),
  ("write", colorKeyword),
  ("x509", colorKeyword),
  ("xa", colorKeyword),
  ("xid", colorKeyword),
  ("xml", colorKeyword),
  ("xor", colorKeyword),
  ("year", colorKeyword),
  ("year_month", colorKeyword),
  ("zerofill", colorKeyword),
]

/-- The running state of one highlighter pass (main.go highlighter locals:
curEscaped, quote, quoteStartIndex, word, plus the statement accumulator). -/
structure ScanState where
  curEscaped : Bool
  quote : Char
  quoteStartIndex : Nat
  word : String
  statements : List Statement
  statementStart : Nat
deriving DecidableEq

/-- The state at the start of every highlighter pass: all locals zeroed. -/
def initState : ScanState where
  curEscaped := false
  quote := quoteNone
  quoteStartIndex := 0
  word := ""
  statements := []
  statementStart := 0

/-- The per-iteration derived values of the highlighter loop at index i
(cur is chars[i-1], next is chars[i] when present), computed exactly as in
main.go lines 250-293: the escape flags, the quote state after the
quote-opening step (quote1, qsi1, quoteToggled) and the delimiter test. -/
structure StepView where
  cur : Char
  next : Option Char
  nextSlashEscaped : Bool
  nextDoubleEscaped : Bool
  nextEscaped : Bool
  isCurQuote : Bool
  quoteToggled : Bool
  quote1 : Char
  qsi1 : Nat
  isDelimiter : Bool
deriving DecidableEq

/-- Computes the StepView of iteration i from the entry state; none when cur
would be nil (the skipped first iteration / past the end). -/
def stepView (chars : List Char) (i : Nat) (s : ScanState) : Option StepView :=
  match chars.get? (i - 1) with
  | none => none
  | some cur =>
    let next := chars.get? i
    let nextSlashEscaped := next.isSome && cur == backslash
    let nextDoubleEscaped :=
      match next with
      | some nx => nx == s.quote && cur == s.quote && decide (s.quoteStartIndex < i)
      | none => false
    let nextEscaped := !s.curEscaped && (nextSlashEscaped || nextDoubleEscaped)
    let isCurQuote := !s.curEscaped && !nextDoubleEscaped &&
                      (cur == quoteSingle || cur == quoteDouble)
    let opening := isCurQuote && s.quote == quoteNone
    some {
      cur := cur
      next := next
      nextSlashEscaped := nextSlashEscaped
      nextDoubleEscaped := nextDoubleEscaped
      nextEscaped := nextEscaped
      isCurQuote := isCurQuote
      quoteToggled := opening
      quote1 := if opening then cur else s.quote
      qsi1 := if opening then i else s.quoteStartIndex
      isDelimiter := delimiters.contains cur }

/-- One iteration of the highlighter loop acting on the scan state (word
accumulation, statement segmentation, quote closing); the color writes are
in fgStep.  Mirrors main.go lines 286-368 minus the Fg assignments. -/
def coreStep (chars : List Char) (i : Nat) (s : ScanState) : ScanState :=
  match stepView chars i s with
  | none => s
  | some v =>
    let word1 := if v.isDelimiter || v.next.isNone then "" else s.word.push v.cur
    let base : Statement := { start := s.statementStart, length := i - s.statementStart }
    let segmented :=
      if v.next.isNone || (v.quote1 == quoteNone && v.cur == semicolon) then
        match v.next with
        | some nx =>
          if nx == newline then
            (s.statements ++ [{ base with length := base.length + 1 }], i + 1)
          else
            (s.statements ++ [base], i)
        | none => (s.statements ++ [base], i)
      else (s.statements, s.statementStart)
    let quote2 :=
      if v.isCurQuote && v.quote1 != quoteNone && !v.quoteToggled && v.quote1 == v.cur
      then quoteNone else v.quote1
    { curEscaped := v.nextEscaped
      quote := quote2
      quoteStartIndex := v.qsi1
      word := word1
      statements := segmented.1
      statementStart := segmented.2 }

/-- Sets count entries of the color list to c starting at index lo (the
retro-coloring loop of main.go lines 301-303; order of the writes is
immaterial since List.set writes are independent per index). -/
def setRange (fgs : List Color) (lo : Nat) : Nat → Color → List Color
  | 0, _ => fgs
  | Nat.succ k, c => (setRange fgs lo k c).set (lo + k) c

/-- The foreground-color writes of iteration i (main.go lines 296-309 keyword
retro-coloring and lines 330-335 quote coloring), applied to the color list. -/
def fgStep (chars : List Char) (i : Nat) (s : ScanState) (fgs : List Color) : List Color :=
  match stepView chars i s with
  | none => fgs
  | some v =>
    let fgs1 :=
      if v.isDelimiter || v.next.isNone then
        match List.lookup s.word keywords with
        | some wordColor => setRange fgs (i - s.word.length - 1) (s.word.length + 1) wordColor
        | none => fgs
      else fgs
    if v.quote1 != quoteNone then fgs1.set (i - 1) Color.green
    else fgs1.set (i - 1) Color.white

/-- Runs the highlighter loop for fuel iterations starting at index i,
threading the scan state and the foreground colors. -/
def scanFrom (chars : List Char) : Nat → Nat → ScanState → List Color → ScanState × List Color
  | 0, _, s, fgs => (s, fgs)
  | Nat.succ fuel, i, s, fgs =>
      scanFrom chars fuel (i + 1) (coreStep chars i s) (fgStep chars i s fgs)

/-- Runs only the state part of the highlighter loop. -/
def coreFrom (chars : List Char) : Nat → Nat → ScanState → ScanState
  | 0, _, s => s
  | Nat.succ fuel, i, s => coreFrom chars fuel (i + 1) (coreStep chars i s)

/-- The scan state at the entry of iteration i of a pass over chars
(iterations run from i = 1; iteration 0 of the Go loop only shifts the
cur/next window and is skipped). -/
def coreAt (chars : List Char) (i : Nat) : ScanState :=
  coreFrom chars (i - 1) 1 initState

/-- The final scan state of one full pass over chars. -/
def scanCore (chars : List Char) : ScanState :=
  coreFrom chars chars.length 1 initState

/-- The foreground colors after one full pass over chars, starting from the
given color list (every in-range index is overwritten during the pass). -/
def scanFgs (chars : List Char) (fgs : List Color) : List Color :=
  (scanFrom chars chars.length 1 initState fgs).2

/-- Whether the quote state tested by the coloring step of iteration i
(main.go line 331, after the quote-opening step) is open. -/
def quoteOpenAt (chars : List Char) (i : Nat) : Bool :=
  match stepView chars i (coreAt chars i) with
  | none => false
  | some v => v.quote1 != quoteNone

/-- main.go charStream: flattens the editor lines into one character stream,
appending a synthetic newline after every line. -/
def charStream (lines : List (List Char)) : List Char :=
  lines.foldr (fun line acc => line ++ [newline] ++ acc) []

/-- The loop of main.go cursorInWhichStatement: skip every statement whose
last character (start+length-1, in int arithmetic) is before the cursor,
return the first remaining one. -/
def cursorScan (cur : Int) : List Statement → Option Statement
  | [] => none
  | s :: rest =>
      if cur > (s.start : Int) + (s.length : Int) - 1 then cursorScan cur rest
      else some s

/-- main.go cursorInWhichStatement: resolve a cursor offset to a statement,
defaulting to the last statement, erring only on an empty list. -/
def cursorInWhichStatement (cur : Int) (ss : List Statement) : Except String Statement :=
  match cursorScan cur ss with
  | some s => Except.ok s
  | none =>
    match ss.getLast? with
    | some last => Except.ok last
    | none => Except.error "Cursor not in statement"

/-- The cursor resolver as the specification words it: the first statement
in order with cursor <= start + length - 1, else the last statement, else
the no-statement error.  Stated for comparison with the source function. -/
def cursorResolverSpec (cur : Int) (ss : List Statement) : Except String Statement :=
  match ss.find? (fun s => decide (cur ≤ (s.start : Int) + (s.length : Int) - 1)) with
  | some s => Except.ok s
  | none =>
    match ss.getLast? with
    | some last => Except.ok last
    | none => Except.error "Cursor not in statement"

/-- The background-color loop at the end of main.go highlighter: every index
inside the active statement gets the cursor-statement color, every other
index black. -/
def bgLoop (n : Nat) (stmt : Statement) (bgs : List Color) : List Color :=
  (List.range n).foldl
    (fun a i =>
      a.set i (if stmt.start ≤ i ∧ i < stmt.start + stmt.length
               then cursorStatementColor else Color.black))
    bgs

/-- The observable output of one main.go highlighter call: the character
attributes it wrote and the statement list and active statement it stored. -/
structure HighlightResult where
  fgs : List Color
  bgs : List Color
  statements : List Statement
  statement : Statement
deriving DecidableEq

/-- main.go highlighter: one full pass over the flattened stream, then cursor
resolution (the Go code discards the error, leaving the zero Statement) and
the background-color loop. -/
def highlighter (chars : List Char) (cursor : Int) (fgs bgs : List Color) : HighlightResult :=
  let s := scanCore chars
  let fgs1 := scanFgs chars fgs
  let stmt :=
    match cursorInWhichStatement cursor s.statements with
    | Except.ok st => st
    | Except.error _ => { start := 0, length := 0 }
  { fgs := fgs1
    bgs := bgLoop chars.length stmt bgs
    statements := s.statements
    statement := stmt }

/-- main.go runQuery lines 62-69: the query text is the character range of
the active statement, concatenated. -/
def extractQuery (chars : List Char) (stmt : Statement) : String :=
  (List.range stmt.length).foldl
    (fun q k =>
      match chars.get? (stmt.start + k) with
      | some c => q.push c
      | none => q)
    ""

/-- main.go runQuery lines 114-135 for one column: the display width is the
running maximum of the name length and the rendered cell lengths, plus one,
clamped to the configured bounds. -/
def columnWidth (name : String) (cells : List String) : Nat :=
  let width := cells.foldl
    (fun width cell => if cell.length > width then cell.length else width)
    name.length
  let width := width + 1
  let width := if width < minColumnWidth then minColumnWidth else width
  if width > maxColumnWidth then maxColumnWidth else width

/-- Sum of the statement lengths of a list. -/
def sumLen (l : List Statement) : Nat := (l.map Statement.length).sum

/-- The statements of l are contiguous starting at offset k: each starts
where the previous one ended. -/
def chainFrom : Nat → List Statement → Prop
  | _, [] => True
  | k, st :: rest => st.start = k ∧ chainFrom (st.start + st.length) rest

/-- Two color lists agree on every index below k. -/
def agreeBelow (k : Nat) (l0 l1 : List Color) : Prop :=
  ∀ j, j < k → l0.get? j = l1.get? j

/-- The loop invariant of the statement segmentation: at the entry of
iteration i the accumulated statements are contiguous from offset 0, their
lengths sum to the running statement start, and that start is at most i. -/
def ScanInv (i : Nat) (s : ScanState) : Prop :=
  chainFrom 0 s.statements ∧ sumLen s.statements = s.statementStart ∧ s.statementStart ≤ i

/-- The doubled-escape flag of iteration i of the canonical pass over chars
(the value of nextDoubleEscaped in main.go line 258 at that iteration). -/
def nextDoubleAt (chars : List Char) (i : Nat) : Option Bool :=
  (stepView chars i (coreAt chars i)).map (fun v => v.nextDoubleEscaped)

/-- The default two-line buffer of main.go, flattened by charStream. -/
def authorsBooksStream : List Char :=
  charStream [("select * from authors;".toList), ("select * from books;".toList)]

/-- The stream of the quote-symmetry test input: a quote b backslash quote c
quote quote d quote e. -/
def quoteSymmetryStream : List Char :=
  [Char.ofNat 97, quoteSingle, Char.ofNat 98, backslash, quoteSingle, Char.ofNat 99,
   quoteSingle, quoteSingle, Char.ofNat 100, quoteSingle, Char.ofNat 101]

/-- The one-line buffer SELECT, flattened. -/
def upperSelectStream : List Char := charStream ["SELECT".toList]

/-- The one-line buffer with a keyword, a type name and an unknown word. -/
def keywordSampleStream : List Char := charStream ["select varchar foo".toList]

/-- A string literal containing the keyword select followed by a semicolon:
quote x space s e l e c t semicolon y quote. -/
def quotedKeywordStream : List Char :=
  [quoteSingle, Char.ofNat 120, Char.ofNat 32, Char.ofNat 115, Char.ofNat 101,
   Char.ofNat 108, Char.ofNat 101, Char.ofNat 99, Char.ofNat 116, semicolon,
   Char.ofNat 121, quoteSingle]

/-- The stream quote a quote quote b quote (two adjacent literal spellings). -/
def adjacentLiteralsStream : List Char :=
  [quoteSingle, Char.ofNat 97, quoteSingle, quoteSingle, Char.ofNat 98, quoteSingle]

/-- The stream of two quote characters only. -/
def lonePairStream : List Char := [quoteSingle, quoteSingle]

/-- The stream a semicolon newline: a semicolon whose trailing newline is the
last character. -/
def trailingSemiStream : List Char := [Char.ofNat 97, semicolon, newline]

/-- The stream a semicolon b: two statements with no trailing newline. -/
def coverageStream : List Char := [Char.ofNat 97, semicolon, Char.ofNat 98]

theorem get?_set_char (l : List Color) (m j : Nat) (v : Color) :
    (l.set m v).get? j = if m = j ∧ m < l.length then some v else l.get? j := by
  induction l generalizing m j with
  | nil => simp
  | cons a as ih =>
    cases m with
    | zero =>
      cases j with
      | zero => simp
      | succ j => simp
    | succ m =>
      cases j with
      | zero => simp
      | succ j => simpa [Nat.succ_lt_succ_iff] using ih m j

theorem getElem?_set_char (l : List Color) (m j : Nat) (v : Color) :
    (l.set m v)[j]? = if m = j ∧ m < l.length then some v else l[j]? := by
  have := get?_set_char l m j v
  rwa [List.get?_eq_getElem?, List.get?_eq_getElem?] at this

theorem agreeBelow_zero (l0 l1 : List Color) : agreeBelow 0 l0 l1 :=
  fun _ hj => absurd hj (Nat.not_lt_zero _)

theorem agreeBelow_set {k : Nat} {l0 l1 : List Color} (m : Nat) (v : Color)
    (hlen : l0.length = l1.length) (hag : agreeBelow k l0 l1) :
    agreeBelow k (l0.set m v) (l1.set m v) := by
  intro j hj
  rw [get?_set_char, get?_set_char, hlen]
  by_cases hm : m = j ∧ m < l1.length
  · rw [if_pos hm, if_pos hm]
  · rw [if_neg hm, if_neg hm]
    exact hag j hj

theorem agreeBelow_set_succ {k : Nat} {l0 l1 : List Color} (v : Color)
    (hlen : l0.length = l1.length) (hag : agreeBelow k l0 l1) :
    agreeBelow (k + 1) (l0.set k v) (l1.set k v) := by
  intro j hj
  rw [get?_set_char, get?_set_char, hlen]
  by_cases hm : k = j ∧ k < l1.length
  · rw [if_pos hm, if_pos hm]
  · rw [if_neg hm, if_neg hm]
    rcases Nat.lt_or_ge j k with h | h
    · exact hag j h
    · have hj' : j = k := by omega
      subst hj'
      have hge : l1.length ≤ j := by
        rcases Nat.lt_or_ge j l1.length with h' | h'
        · exact absurd ⟨rfl, h'⟩ hm
        · exact h'
      rw [List.get?_eq_none.mpr (hlen ▸ hge), List.get?_eq_none.mpr hge]

theorem setRange_length (l : List Color) (lo : Nat) (cnt : Nat) (c : Color) :
    (setRange l lo cnt c).length = l.length := by
  induction cnt with
  | zero => rfl
  | succ k ih => rw [setRange, List.length_set, ih]

theorem agreeBelow_setRange {k : Nat} {l0 l1 : List Color} (lo cnt : Nat) (c : Color)
    (hlen : l0.length = l1.length) (hag : agreeBelow k l0 l1) :
    agreeBelow k (setRange l0 lo cnt c) (setRange l1 lo cnt c) := by
  induction cnt with
  | zero => exact hag
  | succ m ih =>
    rw [setRange, setRange]
    exact agreeBelow_set _ _ (by rw [setRange_length, setRange_length, hlen]) ih

theorem setRange_get?_or (l : List Color) (lo cnt : Nat) (c : Color) (j : Nat) :
    (setRange l lo cnt c).get? j = some c ∨ (setRange l lo cnt c).get? j = l.get? j := by
  induction cnt with
  | zero => exact Or.inr rfl
  | succ m ih =>
    rw [setRange, get?_set_char]
    by_cases hm : lo + m = j ∧ lo + m < (setRange l lo m c).length
    · rw [if_pos hm]
      exact Or.inl rfl
    · rw [if_neg hm]
      exact ih

theorem eq_of_agreeBelow {n : Nat} {l0 l1 : List Color}
    (h0 : l0.length = n) (h1 : l1.length = n) (hag : agreeBelow n l0 l1) : l0 = l1 := by
  apply List.ext
  intro j
  by_cases hj : j < n
  · exact hag j hj
  · rw [List.get?_eq_none.mpr (h0 ▸ Nat.le_of_not_lt hj),
        List.get?_eq_none.mpr (h1 ▸ Nat.le_of_not_lt hj)]

theorem stepView_none_iff (chars : List Char) (i : Nat) (s : ScanState) :
    stepView chars i s = none ↔ chars.get? (i - 1) = none := by
  unfold stepView
  cases h : chars.get? (i - 1) with
  | none => simp
  | some c => simp

theorem stepView_cur {chars : List Char} {i : Nat} {s : ScanState} {v : StepView}
    (hv : stepView chars i s = some v) : chars.get? (i - 1) = some v.cur := by
  unfold stepView at hv
  cases h : chars.get? (i - 1) with
  | none => rw [h] at hv; exact absurd hv (by simp)
  | some c =>
    rw [h] at hv
    simp only [Option.some.injEq] at hv
    rw [← hv]

theorem fgStep_length (chars : List Char) (i : Nat) (s : ScanState) (fgs : List Color) :
    (fgStep chars i s fgs).length = fgs.length := by
  rw [fgStep]
  cases hv : stepView chars i s with
  | none => rfl
  | some v =>
    simp only
    cases hd : (v.isDelimiter || v.next.isNone) with
    | false =>
      simp only [hd, Bool.false_eq_true, if_false]
      cases v.quote1 != quoteNone <;> simp [List.length_set]
    | true =>
      simp only [hd, if_true]
      cases hlk : List.lookup s.word keywords with
      | none =>
        simp only
        cases v.quote1 != quoteNone <;> simp [List.length_set]
      | some c =>
        simp only
        cases v.quote1 != quoteNone <;> simp [List.length_set, setRange_length]

theorem fgStep_agree (chars : List Char) (i : Nat) (s : ScanState) (f0 f1 : List Color)
    (hi : 1 ≤ i) (h0 : f0.length = chars.length) (h1 : f1.length = chars.length)
    (hag : agreeBelow (i - 1) f0 f1) :
    agreeBelow i (fgStep chars i s f0) (fgStep chars i s f1) := by
  have hlen : f0.length = f1.length := by rw [h0, h1]
  have hstep : i - 1 + 1 = i := by omega
  cases hv : stepView chars i s with
  | none =>
    rw [fgStep, fgStep, hv]
    intro j hj
    rcases Nat.lt_or_ge j (i - 1) with h | h
    · exact hag j h
    · have hnone : chars.get? (i - 1) = none := (stepView_none_iff chars i s).mp hv
      have hle : chars.length ≤ i - 1 := List.get?_eq_none.mp hnone
      have hle0 : f0.length ≤ j := by omega
      rw [List.get?_eq_none.mpr hle0, List.get?_eq_none.mpr (hlen ▸ hle0)]
  | some v =>
    rw [fgStep, fgStep, hv]
    simp only
    cases hd : (v.isDelimiter || v.next.isNone) with
    | false =>
      simp only [hd, Bool.false_eq_true, if_false]
      cases v.quote1 != quoteNone <;>
        simpa [hstep] using agreeBelow_set_succ _ hlen hag
    | true =>
      simp only [hd, if_true]
      cases hlk : List.lookup s.word keywords with
      | none =>
        simp only
        cases v.quote1 != quoteNone <;>
          simpa [hstep] using agreeBelow_set_succ _ hlen hag
      | some c =>
        simp only
        have hlen' : (setRange f0 (i - s.word.length - 1) (s.word.length + 1) c).length
            = (setRange f1 (i - s.word.length - 1) (s.word.length + 1) c).length := by
          rw [setRange_length, setRange_length, hlen]
        have hag' := agreeBelow_setRange (i - s.word.length - 1) (s.word.length + 1) c hlen hag
        cases v.quote1 != quoteNone <;>
          simpa [hstep] using agreeBelow_set_succ _ hlen' hag'

theorem scanFrom_snd_length (chars : List Char) :
    ∀ (fuel i : Nat) (s : ScanState) (fgs : List Color),
      (scanFrom chars fuel i s fgs).2.length = fgs.length := by
  intro fuel
  induction fuel with
  | zero => intro i s fgs; rfl
  | succ fuel ih =>
    intro i s fgs
    rw [scanFrom, ih, fgStep_length]

theorem scanFrom_snd_agree (chars : List Char) :
    ∀ (fuel i : Nat) (s : ScanState) (f0 f1 : List Color),
      1 ≤ i → f0.length = chars.length → f1.length = chars.length →
      agreeBelow (i - 1) f0 f1 →
      agreeBelow (i - 1 + fuel) (scanFrom chars fuel i s f0).2 (scanFrom chars fuel i s f1).2 := by
  intro fuel
  induction fuel with
  | zero => intro i s f0 f1 hi h0 h1 hag; simpa [scanFrom] using hag
  | succ fuel ih =>
    intro i s f0 f1 hi h0 h1 hag
    rw [scanFrom, scanFrom]
    have h0' : (fgStep chars i s f0).length = chars.length := by rw [fgStep_length, h0]
    have h1' : (fgStep chars i s f1).length = chars.length := by rw [fgStep_length, h1]
    have hag' : agreeBelow (i + 1 - 1) (fgStep chars i s f0) (fgStep chars i s f1) := by
      simpa using fgStep_agree chars i s f0 f1 hi h0 h1 hag
    have := ih (i + 1) (coreStep chars i s) (fgStep chars i s f0) (fgStep chars i s f1)
      (by omega) h0' h1' hag'
    have heq : i + 1 - 1 + fuel = i - 1 + (fuel + 1) := by omega
    rw [heq] at this
    exact this

theorem scanFgs_length (chars : List Char) (fgs : List Color) :
    (scanFgs chars fgs).length = fgs.length :=
  scanFrom_snd_length chars chars.length 1 initState fgs

theorem scanFgs_indep (chars : List Char) (f0 f1 : List Color)
    (h0 : f0.length = chars.length) (h1 : f1.length = chars.length) :
    scanFgs chars f0 = scanFgs chars f1 := by
  have hag := scanFrom_snd_agree chars chars.length 1 initState f0 f1
    (Nat.le_refl 1) h0 h1 (agreeBelow_zero f0 f1)
  refine eq_of_agreeBelow (n := chars.length) ?_ ?_ ?_
  · rw [scanFgs_length, h0]
  · rw [scanFgs_length, h1]
  · simpa [scanFgs] using hag

theorem bgLoop_length (n : Nat) (stmt : Statement) (bgs : List Color) :
    (bgLoop n stmt bgs).length = bgs.length := by
  induction n with
  | zero => rfl
  | succ m ih =>
    rw [bgLoop, List.range_succ, List.foldl_append]
    rw [bgLoop] at ih
    simp only [List.foldl_cons, List.foldl_nil, List.length_set]
    exact ih

theorem bgLoop_succ (k : Nat) (stmt : Statement) (bgs : List Color) :
    bgLoop (k + 1) stmt bgs =
      (bgLoop k stmt bgs).set k
        (if stmt.start ≤ k ∧ k < stmt.start + stmt.length
         then cursorStatementColor else Color.black) := by
  rw [bgLoop, bgLoop, List.range_succ, List.foldl_append]
  simp only [List.foldl_cons, List.foldl_nil]

theorem bgLoop_indep (n : Nat) (stmt : Statement) (b0 b1 : List Color)
    (h0 : b0.length = n) (h1 : b1.length = n) :
    bgLoop n stmt b0 = bgLoop n stmt b1 := by
  have hlen : ∀ m, (bgLoop m stmt b0).length = (bgLoop m stmt b1).length := by
    intro m
    rw [bgLoop_length, bgLoop_length, h0, h1]
  have hag : ∀ m, agreeBelow m (bgLoop m stmt b0) (bgLoop m stmt b1) := by
    intro m
    induction m with
    | zero => exact agreeBelow_zero _ _
    | succ k ih =>
      rw [bgLoop_succ, bgLoop_succ]
      exact agreeBelow_set_succ _ (hlen k) ih
  exact eq_of_agreeBelow (n := n) (by rw [bgLoop_length, h0]) (by rw [bgLoop_length, h1]) (hag n)

theorem highlighter_indep (chars : List Char) (cursor : Int) (f0 b0 f1 b1 : List Color)
    (hf0 : f0.length = chars.length) (hf1 : f1.length = chars.length)
    (hb0 : b0.length = chars.length) (hb1 : b1.length = chars.length) :
    highlighter chars cursor f0 b0 = highlighter chars cursor f1 b1 := by
  simp only [highlighter]
  rw [scanFgs_indep chars f0 f1 hf0 hf1, bgLoop_indep chars.length _ b0 b1 hb0 hb1]

theorem sumLen_nil : sumLen [] = 0 := rfl

theorem sumLen_cons (a : Statement) (l : List Statement) :
    sumLen (a :: l) = a.length + sumLen l := by
  simp [sumLen]

theorem sumLen_append_single (l : List Statement) (st : Statement) :
    sumLen (l ++ [st]) = sumLen l + st.length := by
  simp [sumLen]

theorem chainFrom_append_single {k : Nat} {l : List Statement} {st : Statement}
    (hc : chainFrom k l) (hst : st.start = k + sumLen l) : chainFrom k (l ++ [st]) := by
  induction l generalizing k with
  | nil =>
    refine ⟨?_, trivial⟩
    rw [hst, sumLen_nil]
    omega
  | cons a as ih =>
    obtain ⟨ha, hrest⟩ := hc
    refine ⟨ha, ih hrest ?_⟩
    rw [hst, sumLen_cons, ha]
    omega

theorem chainFrom_head? {k : Nat} {l : List Statement} {s : Statement}
    (hc : chainFrom k l) (hs : l.head? = some s) : s.start = k := by
  cases l with
  | nil => exact absurd hs (by simp)
  | cons a as =>
    simp only [List.head?_cons, Option.some.injEq] at hs
    rw [← hs]
    exact hc.1

theorem chainFrom_get? {k : Nat} {l : List Statement} :
    chainFrom k l → ∀ (j : Nat) (s t : Statement), l.get? j = some s →
      l.get? (j + 1) = some t → s.start + s.length = t.start := by
  induction l generalizing k with
  | nil => intro _ j s t h1 _; exact absurd h1 (by simp)
  | cons a as ih =>
    intro hc j s t h1 h2
    cases j with
    | zero =>
      simp only [List.get?_cons_zero, Option.some.injEq] at h1
      have ht : as.head? = some t := by
        cases as with
        | nil => exact absurd h2 (by simp)
        | cons b bs => simpa using h2
      rw [← h1]
      exact (chainFrom_head? hc.2 ht).symm
    | succ j => exact ih hc.2 j s t h1 h2

theorem chainFrom_end_le {k : Nat} {l : List Statement} :
    chainFrom k l → ∀ s ∈ l, s.start + s.length ≤ k + sumLen l := by
  induction l generalizing k with
  | nil => intro _ s hs; exact absurd hs (by simp)
  | cons a as ih =>
    intro hc s hs
    rw [sumLen_cons]
    rcases List.mem_cons.mp hs with rfl | hs'
    · rw [hc.1]; omega
    · have := ih hc.2 s hs'
      rw [hc.1] at this
      omega

theorem coreStep_statements_cases (chars : List Char) (i : Nat) (s : ScanState) :
    ((coreStep chars i s).statements = s.statements ∧
     (coreStep chars i s).statementStart = s.statementStart) ∨
    (∃ e, (e = 0 ∨ e = 1) ∧
      (coreStep chars i s).statements
        = s.statements ++ [{ start := s.statementStart, length := i - s.statementStart + e }] ∧
      (coreStep chars i s).statementStart = i + e) := by
  cases hv : stepView chars i s with
  | none =>
    left
    constructor <;> simp [coreStep, hv]
  | some v =>
    cases hn : v.next with
    | none =>
      right
      refine ⟨0, Or.inl rfl, ?_, ?_⟩ <;> simp [coreStep, hv, hn]
    | some nx =>
      cases hb : (v.quote1 == quoteNone && v.cur == semicolon) with
      | false =>
        left
        constructor <;> simp [coreStep, hv, hn, hb]
      | true =>
        cases hnl : (nx == newline) with
        | true =>
          right
          refine ⟨1, Or.inr rfl, ?_, ?_⟩ <;> simp [coreStep, hv, hn, hb, hnl]
        | false =>
          right
          refine ⟨0, Or.inl rfl, ?_, ?_⟩ <;> simp [coreStep, hv, hn, hb, hnl]

theorem coreStep_inv (chars : List Char) (i : Nat) (s : ScanState)
    (h : ScanInv i s) : ScanInv (i + 1) (coreStep chars i s) := by
  obtain ⟨hchain, hsum, hle⟩ := h
  rcases coreStep_statements_cases chars i s with ⟨he1, he2⟩ | ⟨e, he, h1, h2⟩
  · exact ⟨he1 ▸ hchain, by rw [he1, he2, hsum], by rw [he2]; omega⟩
  · refine ⟨?_, ?_, ?_⟩
    · rw [h1]
      exact chainFrom_append_single hchain (by simp [hsum])
    · rw [h1, h2, sumLen_append_single, hsum]
      simp only
      omega
    · rw [h2]
      rcases he with rfl | rfl <;> omega

theorem coreFrom_succ (chars : List Char) :
    ∀ (k j : Nat) (s : ScanState),
      coreFrom chars (k + 1) j s = coreStep chars (j + k) (coreFrom chars k j s) := by
  intro k
  induction k with
  | zero => intro j s; rfl
  | succ k ih =>
    intro j s
    rw [show coreFrom chars (k + 1 + 1) j s
          = coreFrom chars (k + 1) (j + 1) (coreStep chars j s) from rfl]
    rw [ih (j + 1) (coreStep chars j s)]
    rw [show j + 1 + k = j + (k + 1) from by omega]
    rfl

theorem coreAt_succ (chars : List Char) (i : Nat) (hi : 1 ≤ i) :
    coreAt chars (i + 1) = coreStep chars i (coreAt chars i) := by
  obtain ⟨m, rfl⟩ : ∃ m, i = m + 1 := ⟨i - 1, by omega⟩
  show coreFrom chars (m + 1) 1 initState = coreStep chars (m + 1) (coreFrom chars m 1 initState)
  rw [coreFrom_succ chars m 1 initState, show 1 + m = m + 1 from by omega]

theorem coreAt_inv (chars : List Char) : ∀ i, 1 ≤ i → ScanInv i (coreAt chars i) := by
  intro i
  induction i with
  | zero => intro h; exact absurd h (by omega)
  | succ m ih =>
    intro _
    rcases Nat.eq_zero_or_pos m with rfl | hm
    · exact ⟨trivial, rfl, Nat.zero_le _⟩
    · rw [coreAt_succ chars m hm]
      exact coreStep_inv chars m _ (ih hm)

theorem coreStep_last (chars : List Char) (i : Nat) (s : ScanState) (c : Char)
    (hc : chars.get? (i - 1) = some c) (hn : chars.get? i = none) :
    (coreStep chars i s).statementStart = i ∧
    (coreStep chars i s).statements
      = s.statements ++ [{ start := s.statementStart, length := i - s.statementStart }] := by
  have hc' : chars[i - 1]? = some c := by rw [← List.get?_eq_getElem?]; exact hc
  have hn' : chars[i]? = none := by rw [← List.get?_eq_getElem?]; exact hn
  constructor <;> simp [coreStep, stepView, hc', hn']

theorem scanCore_eq_coreAt (chars : List Char) :
    scanCore chars = coreAt chars (chars.length + 1) := rfl

theorem scanCore_inv (chars : List Char) :
    ScanInv (chars.length + 1) (scanCore chars) := by
  rw [scanCore_eq_coreAt]
  exact coreAt_inv chars (chars.length + 1) (by omega)

theorem scanCore_last (chars : List Char) (hpos : 0 < chars.length) :
    (scanCore chars).statementStart = chars.length ∧
    (scanCore chars).statements
      = (coreAt chars chars.length).statements
        ++ [{ start := (coreAt chars chars.length).statementStart,
              length := chars.length - (coreAt chars chars.length).statementStart }] := by
  have hsc : scanCore chars = coreStep chars chars.length (coreAt chars chars.length) := by
    rw [scanCore_eq_coreAt, coreAt_succ chars chars.length hpos]
  have hlt : chars.length - 1 < chars.length := by omega
  have hc : chars.get? (chars.length - 1) = some (chars.get ⟨chars.length - 1, hlt⟩) :=
    List.get?_eq_get hlt
  have hn : chars.get? chars.length = none := List.get?_eq_none.mpr (Nat.le_refl _)
  obtain ⟨h1, h2⟩ := coreStep_last chars chars.length (coreAt chars chars.length) _ hc hn
  exact ⟨hsc ▸ h1, hsc ▸ h2⟩

theorem scanCore_sum (chars : List Char) :
    sumLen (scanCore chars).statements = chars.length := by
  rcases Nat.eq_zero_or_pos chars.length with h0 | hpos
  · have : chars = [] := List.length_eq_zero.mp h0
    subst this
    rfl
  · obtain ⟨h1, h2⟩ := scanCore_last chars hpos
    have hinv := coreAt_inv chars chars.length hpos
    rw [h2, sumLen_append_single, hinv.2.1]
    have := hinv.2.2
    simp only
    omega

theorem cursorScan_eq_find? (cur : Int) :
    ∀ ss : List Statement,
      cursorScan cur ss
        = ss.find? (fun s => decide (cur ≤ (s.start : Int) + (s.length : Int) - 1)) := by
  intro ss
  induction ss with
  | nil => rfl
  | cons a as ih =>
    rw [cursorScan, List.find?_cons]
    by_cases h : cur > (a.start : Int) + (a.length : Int) - 1
    · have hd : decide (cur ≤ (a.start : Int) + (a.length : Int) - 1) = false := by
        simp only [decide_eq_false_iff_not]
        omega
      rw [if_pos h, hd, ih]
    · have hd : decide (cur ≤ (a.start : Int) + (a.length : Int) - 1) = true := by
        simp only [decide_eq_true_eq]
        omega
      rw [if_neg h, hd]

theorem cursorScan_none (cur : Int) :
    ∀ ss : List Statement,
      (∀ s ∈ ss, cur > (s.start : Int) + (s.length : Int) - 1) → cursorScan cur ss = none := by
  intro ss
  induction ss with
  | nil => intro _; rfl
  | cons a as ih =>
    intro h
    rw [cursorScan, if_pos (h a (by simp))]
    exact ih (fun s hs => h s (by simp [hs]))

theorem stepView_fields {chars : List Char} {i : Nat} {s : ScanState} {v : StepView}
    (hv : stepView chars i s = some v) :
    (v.qsi1 = i ∨ v.qsi1 = s.quoteStartIndex) ∧
    (v.quote1 = s.quote ∨ v.quote1 = quoteSingle ∨ v.quote1 = quoteDouble) := by
  unfold stepView at hv
  cases h : chars.get? (i - 1) with
  | none => rw [h] at hv; exact absurd hv (by simp)
  | some c =>
    rw [h] at hv
    simp only [Option.some.injEq] at hv
    subst hv
    constructor
    · dsimp only
      split
      · exact Or.inl rfl
      · exact Or.inr rfl
    · dsimp only
      split
      · rename_i hcond
        simp only [Bool.and_eq_true, Bool.or_eq_true, beq_iff_eq] at hcond
        rcases hcond.1.2 with hc | hc
        · exact Or.inr (Or.inl hc)
        · exact Or.inr (Or.inr hc)
      · exact Or.inl rfl

theorem coreStep_none_eq {chars : List Char} {i : Nat} {s : ScanState}
    (hv : stepView chars i s = none) : coreStep chars i s = s := by
  simp [coreStep, hv]

theorem coreStep_qsi {chars : List Char} {i : Nat} {s : ScanState} {v : StepView}
    (hv : stepView chars i s = some v) :
    (coreStep chars i s).quoteStartIndex = v.qsi1 := by
  simp [coreStep, hv]

theorem coreStep_quote {chars : List Char} {i : Nat} {s : ScanState} {v : StepView}
    (hv : stepView chars i s = some v) :
    (coreStep chars i s).quote = quoteNone ∨ (coreStep chars i s).quote = v.quote1 := by
  have : (coreStep chars i s).quote
      = (if v.isCurQuote && v.quote1 != quoteNone && !v.quoteToggled && v.quote1 == v.cur
         then quoteNone else v.quote1) := by
    simp [coreStep, hv]
  rw [this]
  split
  · exact Or.inl rfl
  · exact Or.inr rfl

theorem coreAt_qsi_lt (chars : List Char) :
    ∀ i, 1 ≤ i → (coreAt chars i).quoteStartIndex < i := by
  intro i
  induction i with
  | zero => intro h; exact absurd h (by omega)
  | succ m ih =>
    intro _
    rcases Nat.eq_zero_or_pos m with rfl | hm
    · exact Nat.zero_lt_one
    · rw [coreAt_succ chars m hm]
      cases hv : stepView chars m (coreAt chars m) with
      | none =>
        rw [coreStep_none_eq hv]
        exact Nat.lt_succ_of_lt (ih hm)
      | some v =>
        rw [coreStep_qsi hv]
        rcases (stepView_fields hv).1 with h | h
        · rw [h]; omega
        · rw [h]; exact Nat.lt_succ_of_lt (ih hm)

theorem coreAt_quote_vals (chars : List Char) :
    ∀ i, (coreAt chars i).quote = quoteNone ∨ (coreAt chars i).quote = quoteSingle ∨
         (coreAt chars i).quote = quoteDouble := by
  intro i
  induction i with
  | zero => exact Or.inl rfl
  | succ m ih =>
    rcases Nat.eq_zero_or_pos m with rfl | hm
    · exact Or.inl rfl
    · rw [coreAt_succ chars m hm]
      cases hv : stepView chars m (coreAt chars m) with
      | none =>
        rw [coreStep_none_eq hv]
        exact ih
      | some v =>
        rcases coreStep_quote hv with h | h
        · exact Or.inl h
        · rcases (stepView_fields hv).2 with h' | h' | h'
          · rw [h, h']; exact ih
          · exact Or.inr (Or.inl (h.trans h'))
          · exact Or.inr (Or.inr (h.trans h'))

theorem keywords_colors : ∀ p ∈ keywords, p.2 = colorKeyword ∨ p.2 = colorType := by decide

theorem lookup_colors :
    ∀ (l : List (String × Color)), (∀ p ∈ l, p.2 = colorKeyword ∨ p.2 = colorType) →
      ∀ (w : String) (c : Color), List.lookup w l = some c →
        c = colorKeyword ∨ c = colorType := by
  intro l
  induction l with
  | nil => intro _ w c h; exact absurd h (by simp)
  | cons a as ih =>
    intro hl w c h
    obtain ⟨k, b⟩ := a
    rw [List.lookup] at h
    cases hw : (w == k) with
    | true =>
      rw [hw] at h
      simp only [cond_true, Option.some.injEq] at h
      rcases hl (k, b) (by simp) with hb | hb
      · exact Or.inl (h ▸ hb)
      · exact Or.inr (h ▸ hb)
    | false =>
      rw [hw] at h
      simp only [cond_false] at h
      exact ih (fun p hp => hl p (by simp [hp])) w c h

theorem fgStep_get?_last {chars : List Char} {i : Nat} {s : ScanState} {v : StepView}
    (hv : stepView chars i s = some v) (fgs : List Color) (hin : i - 1 < fgs.length) :
    (fgStep chars i s fgs).get? (i - 1)
      = some (if v.quote1 != quoteNone then Color.green else Color.white) := by
  rw [fgStep, hv]
  simp only
  cases hd : (v.isDelimiter || v.next.isNone) with
  | false =>
    simp only [hd, Bool.false_eq_true, if_false]
    cases hq : (v.quote1 != quoteNone) <;>
      simp [hq, get?_set_char, getElem?_set_char, hin]
  | true =>
    simp only [hd, if_true]
    cases hlk : List.lookup s.word keywords with
    | none =>
      simp only
      cases hq : (v.quote1 != quoteNone) <;>
        simp [hq, get?_set_char, getElem?_set_char, hin]
    | some wc =>
      simp only
      have hin' : i - 1 < (setRange fgs (i - s.word.length - 1) (s.word.length + 1) wc).length := by
        rw [setRange_length]; exact hin
      cases hq : (v.quote1 != quoteNone) <;>
        simp [hq, get?_set_char, getElem?_set_char, hin']

theorem fgStep_get?_other {chars : List Char} {i : Nat} {s : ScanState} {v : StepView}
    (hv : stepView chars i s = some v) (fgs : List Color) (j : Nat) (hj : j ≠ i - 1) :
    (fgStep chars i s fgs).get? j = fgs.get? j ∨
    ∃ c, List.lookup s.word keywords = some c ∧ (fgStep chars i s fgs).get? j = some c := by
  rw [fgStep, hv]
  simp only
  have hne : ¬ (i - 1 = j ∧ i - 1 < fgs.length) := fun hh => hj (hh.1.symm)
  cases hd : (v.isDelimiter || v.next.isNone) with
  | false =>
    simp only [hd, Bool.false_eq_true, if_false]
    cases hq : (v.quote1 != quoteNone) <;>
      simp [hq, get?_set_char, getElem?_set_char, hne]
  | true =>
    simp only [hd, if_true]
    cases hlk : List.lookup s.word keywords with
    | none =>
      simp only
      cases hq : (v.quote1 != quoteNone) <;>
        simp [hq, get?_set_char, getElem?_set_char, hne]
    | some wc =>
      simp only
      have hne' : ¬ (i - 1 = j ∧
          i - 1 < (setRange fgs (i - s.word.length - 1) (s.word.length + 1) wc).length) :=
        fun hh => hj (hh.1.symm)
      rcases setRange_get?_or fgs (i - s.word.length - 1) (s.word.length + 1) wc j with h | h
      · rw [List.get?_eq_getElem?] at h
        cases hq : (v.quote1 != quoteNone) <;>
        · right
          exact ⟨wc, rfl, by simp [hq, getElem?_set_char, hne', h]⟩
      · rw [List.get?_eq_getElem?, List.get?_eq_getElem?] at h
        cases hq : (v.quote1 != quoteNone) <;>
        · left
          simp [hq, getElem?_set_char, hne', h]

theorem scanFrom_fg_inv (chars : List Char) :
    ∀ (fuel i : Nat) (fgs : List Color),
      1 ≤ i → i + fuel = chars.length + 1 → fgs.length = chars.length →
      (∀ j, j + 1 < i →
        fgs.get? j = some (if quoteOpenAt chars (j + 1) then Color.green else Color.white) ∨
        fgs.get? j = some colorKeyword ∨ fgs.get? j = some colorType) →
      ∀ j, j + 1 < i + fuel →
        (scanFrom chars fuel i (coreAt chars i) fgs).2.get? j
          = some (if quoteOpenAt chars (j + 1) then Color.green else Color.white) ∨
        (scanFrom chars fuel i (coreAt chars i) fgs).2.get? j = some colorKeyword ∨
        (scanFrom chars fuel i (coreAt chars i) fgs).2.get? j = some colorType := by
  intro fuel
  induction fuel with
  | zero =>
    intro i fgs hi hn hlen hQ j hj
    exact hQ j (by omega)
  | succ fuel ih =>
    intro i fgs hi hn hlen hQ
    rw [scanFrom, ← coreAt_succ chars i hi,
        show i + (fuel + 1) = i + 1 + fuel from by omega]
    apply ih (i + 1) (fgStep chars i (coreAt chars i) fgs) (by omega) (by omega)
      (by rw [fgStep_length]; exact hlen)
    intro j hj
    have hin : i - 1 < chars.length := by omega
    have hc : chars.get? (i - 1) = some (chars.get ⟨i - 1, hin⟩) := List.get?_eq_get hin
    cases hv : stepView chars i (coreAt chars i) with
    | none =>
      have := (stepView_none_iff chars i (coreAt chars i)).mp hv
      rw [this] at hc
      exact absurd hc (by simp)
    | some v =>
      rcases Nat.lt_or_ge (j + 1) i with hji | hji
      · rcases fgStep_get?_other hv fgs j (by omega) with h | ⟨c, hlk, h⟩
        · rw [h]
          exact hQ j hji
        · rw [h]
          rcases lookup_colors keywords keywords_colors _ c hlk with rfl | rfl
          · exact Or.inr (Or.inl rfl)
          · exact Or.inr (Or.inr rfl)
      · have hji' : j = i - 1 := by omega
        subst hji'
        rw [fgStep_get?_last hv fgs (by omega)]
        have hj1 : i - 1 + 1 = i := by omega
        rw [hj1, quoteOpenAt, hv]
        exact Or.inl rfl

theorem getLast?_cons_some (a : Statement) (as : List Statement) :
    ∃ l, (a :: as).getLast? = some l := by
  induction as generalizing a with
  | nil => exact ⟨a, rfl⟩
  | cons b bs ih =>
    obtain ⟨l, hl⟩ := ih b
    exact ⟨l, by rw [List.getLast?_cons_cons]; exact hl⟩

theorem coreStep_semi_newline (chars : List Char) (i : Nat) (s : ScanState)
    (hc : chars.get? (i - 1) = some semicolon) (hnx : chars.get? i = some newline)
    (hq : s.quote = quoteNone) :
    (coreStep chars i s).statements
      = s.statements ++ [{ start := s.statementStart, length := i - s.statementStart + 1 }] ∧
    (coreStep chars i s).statementStart = i + 1 := by
  have hc' : chars[i - 1]? = some semicolon := by rw [← List.get?_eq_getElem?]; exact hc
  have hn' : chars[i]? = some newline := by rw [← List.get?_eq_getElem?]; exact hnx
  have e1 : (semicolon == quoteSingle) = false := by decide
  have e2 : (semicolon == quoteDouble) = false := by decide
  have e3 : (newline == quoteNone) = false := by decide
  have e4 : (semicolon == backslash) = false := by decide
  constructor <;> simp [coreStep, stepView, hc', hn', hq, e1, e2, e3, e4]

theorem foldl_width_max (cells : List String) :
    ∀ a : Nat,
      cells.foldl (fun w cell => if cell.length > w then cell.length else w) a
        = max a ((cells.map String.length).foldr max 0) := by
  induction cells with
  | nil => intro a; simp
  | cons c cs ih =>
    intro a
    rw [List.foldl_cons, ih]
    simp only [List.map_cons, List.foldr_cons]
    have hmx : (if c.length > a then c.length else a) = max a c.length := by
      rcases Nat.lt_or_ge a c.length with h | h
      · rw [if_pos h, Nat.max_eq_right (Nat.le_of_lt h)]
      · rw [if_neg (by omega), Nat.max_eq_left h]
    rw [hmx, Nat.max_assoc]

/-- C1: for every input character stream, the statement list produced by one
scan pass is contiguous and covers the whole stream: the first statement
starts at offset 0, each statement ends exactly where the next one starts,
and the statement lengths sum to the stream length. -/
theorem c1_coverage_invariant (chars : List Char) :
    (∀ s, (scanCore chars).statements.head? = some s → s.start = 0) ∧
    (∀ (k : Nat) (s t : Statement),
        (scanCore chars).statements.get? k = some s →
        (scanCore chars).statements.get? (k + 1) = some t →
        s.start + s.length = t.start) ∧
    ((scanCore chars).statements.map Statement.length).sum = chars.length := by
  have hinv := scanCore_inv chars
  refine ⟨?_, ?_, scanCore_sum chars⟩
  · intro s hs
    exact chainFrom_head? hinv.1 hs
  · intro k s t h1 h2
    exact chainFrom_get? hinv.1 k s t h1 h2

/-- Witness for c1_coverage_invariant: on the stream a semicolon b the two
statements start at 0 and are contiguous. -/
theorem c1_coverage_invariant_witness :
    ({ start := 0, length := 2 } : Statement).start = 0 ∧
    ({ start := 0, length := 2 } : Statement).start
        + ({ start := 0, length := 2 } : Statement).length
      = ({ start := 2, length := 1 } : Statement).start :=
  ⟨(c1_coverage_invariant coverageStream).1 { start := 0, length := 2 } (by decide),
   (c1_coverage_invariant coverageStream).2.1 0 { start := 0, length := 2 }
     { start := 2, length := 1 } (by decide) (by decide)⟩

/-- C2 counterexample: scanning the default two-line buffer does not yield
exactly two statements (a trailing zero-length statement is also emitted). -/
theorem c2_counterexample :
    ¬ (scanCore authorsBooksStream).statements.length = 2 := by decide

/-- C2 amended: scanning the two-line buffer yields exactly three statements:
the first spans offsets 0-22 through its semicolon and the following newline,
the second spans offsets 23-43 through its own semicolon and the trailing
synthetic newline, and a final zero-length statement sits at end-of-stream. -/
theorem c2_amended :
    (scanCore authorsBooksStream).statements
      = [{ start := 0, length := 23 }, { start := 23, length := 21 },
         { start := 44, length := 0 }] := by decide

/-- C3: the cursor resolver returns the first statement in order with
cursor at most start+length-1, falls back to the last statement when none
matches and the list is non-empty, and returns the no-statement error
exactly when the statement list is empty. -/
theorem c3_cursor_resolution (cur : Int) (ss : List Statement) :
    cursorInWhichStatement cur ss = cursorResolverSpec cur ss ∧
    (cursorInWhichStatement cur ss = Except.error "Cursor not in statement" ↔ ss = []) := by
  constructor
  · rw [cursorInWhichStatement, cursorResolverSpec, cursorScan_eq_find?]
  · constructor
    · intro h
      cases ss with
      | nil => rfl
      | cons a as =>
        rw [cursorInWhichStatement] at h
        cases hcs : cursorScan cur (a :: as) with
        | some s => rw [hcs] at h; exact absurd h (by simp)
        | none =>
          rw [hcs] at h
          obtain ⟨l, hl⟩ := getLast?_cons_some a as
          rw [hl] at h
          exact absurd h (by simp)
    · intro h
      subst h
      rfl

/-- C4: in the stream a'b\'c''d'e the backslash-escaped quote and the doubled
quote pair do not close the literal, the final quote before e closes it, and
exactly the span from the opening quote through the closing quote is colored
as a string literal. -/
theorem c4_quote_symmetry :
    scanFgs quoteSymmetryStream (List.replicate 11 Color.white)
      = [Color.white, Color.green, Color.green, Color.green, Color.green, Color.green,
         Color.green, Color.green, Color.green, Color.green, Color.white] ∧
    (coreAt quoteSymmetryStream 6).quote = quoteSingle ∧
    (coreAt quoteSymmetryStream 9).quote = quoteSingle ∧
    (coreAt quoteSymmetryStream 10).quote = quoteSingle ∧
    (coreAt quoteSymmetryStream 11).quote = quoteNone := by decide

/-- C5: a position is doubled-escaped exactly when a quote is open, the
current and next characters both equal the open quote character, and the
current position is not the opening character (for streams without the NUL
sentinel rune that encodes the no-quote state); a quote right after a lone
opening quote is not misread as an escape pair, and in the stream
quote a quote quote b quote the inner pair continues the first literal
instead of closing it and starting a second one. -/
theorem c5_doubled_escape (chars : List Char) (i : Nat) (cur : Char)
    (hi : 1 ≤ i) (hnul : ∀ c ∈ chars, c ≠ quoteNone)
    (hcur : chars.get? (i - 1) = some cur) :
    (nextDoubleAt chars i = some true ↔
      ((coreAt chars i).quote ≠ quoteNone ∧ cur = (coreAt chars i).quote ∧
       chars.get? i = some (coreAt chars i).quote ∧
       i ≠ (coreAt chars i).quoteStartIndex)) ∧
    nextDoubleAt adjacentLiteralsStream 3 = some true ∧
    (coreAt adjacentLiteralsStream 4).quote = quoteSingle ∧
    (coreAt adjacentLiteralsStream 5).quote = quoteSingle ∧
    (scanCore adjacentLiteralsStream).statements = [{ start := 0, length := 6 }] ∧
    nextDoubleAt lonePairStream 1 = some false ∧
    (scanCore lonePairStream).quote = quoteNone := by
  refine ⟨?_, by decide, by decide, by decide, by decide, by decide, by decide⟩
  have hqsi : (coreAt chars i).quoteStartIndex < i := coreAt_qsi_lt chars i hi
  have hmem : cur ∈ chars := List.get?_mem hcur
  rw [nextDoubleAt]
  unfold stepView
  rw [hcur]
  cases hnext : chars.get? i with
  | none =>
    simp only [Option.map_some']
    constructor
    · intro h
      exact absurd h (by simp)
    · rintro ⟨_, _, h3, _⟩
      exact absurd h3 (by simp)
  | some nx =>
    simp only [Option.map_some', Option.some.injEq, Bool.and_eq_true, beq_iff_eq,
      decide_eq_true_eq]
    constructor
    · rintro ⟨⟨h1, h2⟩, _⟩
      have hq : (coreAt chars i).quote ≠ quoteNone := by
        intro hq0
        exact hnul cur hmem (h2.trans hq0)
      exact ⟨hq, h2, h1, by omega⟩
    · rintro ⟨_, h2, h3, _⟩
      exact ⟨⟨h3, h2⟩, hqsi⟩

/-- Witness for c5_doubled_escape: the characterization instantiated at
iteration 3 of the adjacent-literals stream. -/
theorem c5_doubled_escape_witness :
    nextDoubleAt adjacentLiteralsStream 3 = some true ↔
      ((coreAt adjacentLiteralsStream 3).quote ≠ quoteNone ∧
       quoteSingle = (coreAt adjacentLiteralsStream 3).quote ∧
       adjacentLiteralsStream.get? 3 = some (coreAt adjacentLiteralsStream 3).quote ∧
       3 ≠ (coreAt adjacentLiteralsStream 3).quoteStartIndex) :=
  (c5_doubled_escape adjacentLiteralsStream 3 quoteSingle (by decide) (by decide)
    (by decide)).1

/-- C6 counterexample: the accumulated word is not lowered before lookup, so
the uppercase word SELECT matches nothing and every character keeps the
default color instead of the keyword color. -/
theorem c6_counterexample :
    scanFgs upperSelectStream (List.replicate 7 Color.white)
        = List.replicate 7 Color.white ∧
    List.lookup "SELECT" keywords = none ∧
    Color.white ≠ colorKeyword := by decide

/-- C6 amended: at a word boundary the accumulated word is looked up as-is,
case-sensitively: lowercase select is colored as a keyword, varchar as a
type, an unrecognized word keeps the default color, and uppercase SELECT
matches nothing. -/
theorem c6_amended :
    scanFgs keywordSampleStream (List.replicate 19 Color.white)
      = List.replicate 6 colorKeyword ++ [Color.white] ++ List.replicate 7 colorType
        ++ List.replicate 5 Color.white ∧
    List.lookup "select" keywords = some colorKeyword ∧
    List.lookup "varchar" keywords = some colorType ∧
    List.lookup "foo" keywords = none ∧
    List.lookup "SELECT" keywords = none := by decide

/-- C7 counterexample: inside an open string literal the keyword select
followed by a quoted semicolon is retro-colored with the keyword color, so a
character consumed while a literal is open does not end the pass with the
string-literal color. -/
theorem c7_counterexample :
    quoteOpenAt quotedKeywordStream 4 = true ∧
    (scanFgs quotedKeywordStream (List.replicate 12 Color.white)).get? 3
        = some colorKeyword ∧
    colorKeyword ≠ Color.green := by decide

/-- C7 amended: every character position ends the pass either with the color
its own step assigned (string-literal green when a quote was open there,
default white otherwise) or with one of the two keyword-table colors written
by a later keyword retro-coloring, which ignores the quote state. -/
theorem c7_amended_coloring (chars : List Char) (fgs : List Color) (j : Nat)
    (hlen : fgs.length = chars.length) (hj : j < chars.length) :
    (scanFgs chars fgs).get? j
      = some (if quoteOpenAt chars (j + 1) then Color.green else Color.white) ∨
    (scanFgs chars fgs).get? j = some colorKeyword ∨
    (scanFgs chars fgs).get? j = some colorType := by
  have := scanFrom_fg_inv chars chars.length 1 fgs (Nat.le_refl 1) (by omega) hlen
    (fun j hj => absurd hj (by omega)) j (by omega)
  exact this

/-- Witness for c7_amended_coloring at a one-character stream. -/
theorem c7_amended_coloring_witness :
    (scanFgs [Char.ofNat 97] [Color.white]).get? 0
        = some (if quoteOpenAt [Char.ofNat 97] 1 then Color.green else Color.white) ∨
    (scanFgs [Char.ofNat 97] [Color.white]).get? 0 = some colorKeyword ∨
    (scanFgs [Char.ofNat 97] [Color.white]).get? 0 = some colorType :=
  c7_amended_coloring [Char.ofNat 97] [Color.white] 0 rfl (by decide)

/-- C8: each column's display width is the maximum of the name length and the
longest rendered cell, plus one, clamped into the configured bounds; a column
named id with longest cell of three characters gets width 5 and a column with
a forty-character cell gets width 25. -/
theorem c8_column_width (name : String) (cells : List String) :
    columnWidth name cells
      = max minColumnWidth
          (min maxColumnWidth
            (max name.length ((cells.map String.length).foldr max 0) + 1)) ∧
    columnWidth "id" ["1", "22", "333"] = 5 ∧
    columnWidth "v" [String.mk (List.replicate 40 (Char.ofNat 120))] = 25 := by
  refine ⟨?_, by decide, by decide⟩
  simp only [columnWidth]
  rw [foldl_width_max cells name.length]
  simp only [minColumnWidth, maxColumnWidth, Nat.max_def, Nat.min_def]
  split_ifs <;> omega

/-- C9: running the highlighter twice over an unchanged buffer produces
identical statement lists and identical per-character foreground and
background attributes, because every pass reinitializes its state and
rewrites every character attribute. -/
theorem c9_idempotent (chars : List Char) (cursor : Int) (fgs bgs : List Color)
    (hf : fgs.length = chars.length) (hb : bgs.length = chars.length) :
    highlighter chars cursor (highlighter chars cursor fgs bgs).fgs
        (highlighter chars cursor fgs bgs).bgs
      = highlighter chars cursor fgs bgs := by
  have hf1 : (highlighter chars cursor fgs bgs).fgs.length = chars.length := by
    simp only [highlighter]
    rw [scanFgs_length, hf]
  have hb1 : (highlighter chars cursor fgs bgs).bgs.length = chars.length := by
    simp only [highlighter]
    rw [bgLoop_length, hb]
  exact highlighter_indep chars cursor _ _ fgs bgs hf1 hf hb1 hb

/-- Witness for c9_idempotent at a one-character buffer. -/
theorem c9_idempotent_witness :
    highlighter [Char.ofNat 97] 0
        (highlighter [Char.ofNat 97] 0 [Color.white] [Color.black]).fgs
        (highlighter [Char.ofNat 97] 0 [Color.white] [Color.black]).bgs
      = highlighter [Char.ofNat 97] 0 [Color.white] [Color.black] :=
  c9_idempotent [Char.ofNat 97] 0 [Color.white] [Color.black] rfl rfl

/-- C10: when an unquoted semicolon is followed by a newline that ends the
flattened stream, the scan emits the extended statement and one additional
zero-length statement at end-of-stream; a cursor at end-of-stream resolves
through the last-statement fallback to that empty statement, and executing
it extracts the empty query text. -/
theorem c10_trailing_empty_statement (chars : List Char) (n : Nat)
    (hn : n = chars.length) (h2 : 2 ≤ n)
    (hsemi : chars.get? (n - 2) = some semicolon)
    (hnl : chars.get? (n - 1) = some newline)
    (hq : (coreAt chars (n - 1)).quote = quoteNone) :
    (∃ pre ext, (scanCore chars).statements
        = pre ++ [ext] ++ [{ start := n, length := 0 }] ∧
      ext.start + ext.length = n) ∧
    cursorInWhichStatement (n : Int) (scanCore chars).statements
      = Except.ok { start := n, length := 0 } ∧
    extractQuery chars { start := n, length := 0 } = "" := by
  subst hn
  have h1m : 1 ≤ chars.length - 1 := by omega
  have hidx : chars.length - 1 + 1 = chars.length := by omega
  have hinv := coreAt_inv chars (chars.length - 1) h1m
  obtain ⟨hA1, hA2⟩ :=
    coreStep_semi_newline chars (chars.length - 1) (coreAt chars (chars.length - 1))
      (by rw [show chars.length - 1 - 1 = chars.length - 2 from by omega]; exact hsemi)
      hnl hq
  have hAeq : coreAt chars chars.length
      = coreStep chars (chars.length - 1) (coreAt chars (chars.length - 1)) := by
    rw [← hidx]
    exact coreAt_succ chars (chars.length - 1) h1m
  have hBeq : scanCore chars
      = coreStep chars chars.length (coreAt chars chars.length) := by
    rw [scanCore_eq_coreAt]
    exact coreAt_succ chars chars.length (by omega)
  have hlast : chars.get? (chars.length - 1)
      = some (chars.get ⟨chars.length - 1, by omega⟩) :=
    List.get?_eq_get (by omega)
  have hend : chars.get? chars.length = none := List.get?_eq_none.mpr (Nat.le_refl _)
  obtain ⟨hB1, hB2⟩ :=
    coreStep_last chars chars.length (coreAt chars chars.length) _ hlast hend
  have hsts : (scanCore chars).statements
      = (coreAt chars (chars.length - 1)).statements
        ++ [{ start := (coreAt chars (chars.length - 1)).statementStart,
              length := chars.length - 1 - (coreAt chars (chars.length - 1)).statementStart + 1 }]
        ++ [{ start := chars.length, length := 0 }] := by
    rw [hBeq, hB2, hAeq, hA1, hA2, hidx, Nat.sub_self]
  have hstLe : (coreAt chars (chars.length - 1)).statementStart ≤ chars.length - 1 :=
    hinv.2.2
  have hextsum :
      ({ start := (coreAt chars (chars.length - 1)).statementStart,
         length := chars.length - 1 - (coreAt chars (chars.length - 1)).statementStart + 1 }
        : Statement).start
      + ({ start := (coreAt chars (chars.length - 1)).statementStart,
           length := chars.length - 1 - (coreAt chars (chars.length - 1)).statementStart + 1 }
          : Statement).length = chars.length := by
    simp only
    omega
  refine ⟨⟨_, _, hsts, hextsum⟩, ?_, rfl⟩
  rw [cursorInWhichStatement]
  have hnone : cursorScan (chars.length : Int) (scanCore chars).statements = none := by
    apply cursorScan_none
    intro x hx
    rw [hsts] at hx
    rcases List.mem_append.mp hx with hx1 | hx2
    · rcases List.mem_append.mp hx1 with hpre | hext
      · have hle := chainFrom_end_le hinv.1 x hpre
        have hsum := hinv.2.1
        omega
      · have hx' : x
            = { start := (coreAt chars (chars.length - 1)).statementStart,
                length := chars.length - 1 - (coreAt chars (chars.length - 1)).statementStart + 1 } := by
          simpa using hext
        subst hx'
        simp only
        omega
    · have hx' : x = { start := chars.length, length := 0 } := by simpa using hx2
      subst hx'
      simp only
      omega
  rw [hnone]
  have hgl : ((scanCore chars).statements).getLast?
      = some { start := chars.length, length := 0 } := by
    rw [hsts]
    exact List.getLast?_concat _
  rw [hgl]

/-- Witness for c10_trailing_empty_statement at the stream a semicolon newline. -/
theorem c10_trailing_empty_statement_witness :
    (∃ pre ext, (scanCore trailingSemiStream).statements
        = pre ++ [ext] ++ [{ start := 3, length := 0 }] ∧
      ext.start + ext.length = 3) ∧
    cursorInWhichStatement (3 : Int) (scanCore trailingSemiStream).statements
      = Except.ok { start := 3, length := 0 } ∧
    extractQuery trailingSemiStream { start := 3, length := 0 } = "" :=
  c10_trailing_empty_statement trailingSemiStream 3 rfl (by decide) (by decide)
    (by decide) (by decide)

/-- Witness for c3_cursor_resolution at a concrete cursor and statement list. -/
theorem c3_cursor_resolution_witness :
    (cursorInWhichStatement 0 [{ start := 0, length := 2 }]
        = cursorResolverSpec 0 [{ start := 0, length := 2 }]) ∧
    (cursorInWhichStatement 0 [{ start := 0, length := 2 }]
        = Except.error "Cursor not in statement" ↔
      ([{ start := 0, length := 2 }] : List Statement) = []) :=
  c3_cursor_resolution 0 [{ start := 0, length := 2 }]

/-- Witness for c8_column_width: the two clamped examples. -/
theorem c8_column_width_witness :
    columnWidth "id" ["1", "22", "333"] = 5 ∧
    columnWidth "v" [String.mk (List.replicate 40 (Char.ofNat 120))] = 25 :=
  ⟨(c8_column_width "id" ["1", "22", "333"]).2.1,
   (c8_column_width "v" [String.mk (List.replicate 40 (Char.ofNat 120))]).2.2⟩
